import Mathlib

/-!
# PTPContainer (libptp++): a shallow embedding of `src/PTPContainer.cpp`

The container is a 12-byte header (`length`, `type`, `code`, `transaction_id`)
and a heap buffer `payload`.  Every member function of the source is a Lean
function over the record `PTPContainer`.

## How the copies of the source are read

All data movement in the source is `std::copy(first, last, dest)`.  That call
assigns `*dest++ = *first++` once per ELEMENT of the source range, and each
assignment converts the value to the destination's element type.  The range
is counted in elements of the pointer's type, not in bytes:

* `std::copy(&x, &x + sizeof x, bytes)` with `x` a `uint32_t`: `&x` is a
  `uint32_t *`, so the range holds `sizeof x = 4` elements of 4 bytes each.
  Element 0 is `x`; elements 1, 2, 3 are whatever lies after `x` in memory.
  Each element is narrowed to `unsigned char`, that is, taken modulo 256.
* `std::copy(bytes, bytes + 4, &x)`: four `unsigned char` elements are
  widened and stored to `(&x)[0]`, ..., `(&x)[3]`; `x` itself receives the
  single byte `bytes[0]`, the three others are stored after `x`.
* `std::copy(bytes, bytes + n, other_bytes)` moves `n` bytes unchanged.

Running past a scalar is outside what C++ defines.  To keep what the code
does visible, the model follows the copy element by element as a compiler
executes it: the elements read after a scalar are taken from `Memory` (they
depend on the class layout and on the stack, which the sources do not fix),
and the elements stored after a scalar are not part of the state modelled
here (each member keeps the value of its own store).  Reading or writing
outside a buffer whose extent is known (the caller's data, the payload
allocation, the packed result) ends the call as `Outcome.undefined`; what the
container holds after such an end is not defined by C++, and no statement
below rests on it.

Machine integers are `Nat`; wherever the source computes in `uint32_t` the
model reduces modulo `2 ^ 32` (`sub_u32` for a difference).
-/

namespace PTP

/-- The enum `LIBPTP_PP_ERRORS` of `libptp++.hpp`; its constants are what the
source throws. -/
inductive LIBPTP_PP_ERRORS where
  | ERR_NONE
  | ERR_CANNOT_CONNECT
  | ERR_NO_DEVICE
  | ERR_ALREADY_OPEN
  | ERR_NOT_OPEN
  | ERR_CANNOT_RECV
  | ERR_TIMEOUT
  | ERR_INVALID_RESPONSE
  | ERR_NOT_IMPLEMENTED
  | ERR_PTPCONTAINER_NO_PAYLOAD
  | ERR_PTPCONTAINER_INVALID_PARAM
  | ERR_LVDATA_NOT_ENOUGH_DATA
  deriving DecidableEq, Repr

/-- How a call of a member function ends: it returns, it throws one of the
library's error constants, or it leaves defined behaviour (an access outside a
buffer, a reversed range). -/
inductive Outcome (α : Type) where
  | ok (value : α)
  | thrown (e : LIBPTP_PP_ERRORS)
  | undefined
  deriving DecidableEq, Repr

/-- An access that stays inside its buffer gives a value; one that does not
ends the call as undefined. -/
def Outcome.ofOption {α : Type} : Option α → Outcome α
  | some a => Outcome.ok a
  | none => Outcome.undefined

/-- Modelled from the spec: the data members of `class PTPContainer`, declared
in `PTPContainer.hpp`, which is not among the sources.  The spec's data model
gives `length: u32`, `type: u16`, `code: u16`, `transaction_id: u32` and a
payload buffer; the signatures in the source agree (`uint32_t get_length()`,
`PTPContainer(uint16_t type, uint16_t op_code)`, `delete[] this->payload`).
`payload` is the pointer member: `none` is `NULL`, `some cells` a heap buffer
with these cells (a buffer of no cells, `new unsigned char[0]`, is not `NULL`). -/
structure PTPContainer where
  length : Nat
  payload : Option (List Nat)
  type : Nat
  code : Nat
  transaction_id : Nat
  deriving DecidableEq, Repr

/-- What the program text does not determine: the elements lying after each
scalar an element-wise copy runs past (`past_x i` is element `i ≥ 1` of the
array `&x` is taken for), and the initial content of a fresh allocation
(`heap i` is cell `i` of a buffer just returned by `new unsigned char[n]`). -/
structure Memory where
  past_length : Nat → Nat
  past_type : Nat → Nat
  past_code : Nat → Nat
  past_transaction_id : Nat → Nat
  past_param : Nat → Nat
  heap : Nat → Nat

/-- Modelled from the spec: the constant `default_length`, declared in
`PTPContainer.hpp`, which is not among the sources.  The spec gives a header-only
container `length = 12`; the source uses the literal 12 for the same quantity in
`unpack` and `get_param_n`, and computes 4 + 2 + 2 + 4 for it in `pack`. -/
def default_length : Nat := 12

/-- The difference `a - b` as `uint32_t` arithmetic computes it, for operands
below `2 ^ 32`: `(a + 2 ^ 32 - b) % 2 ^ 32`, written without the large sum. -/
def sub_u32 (a b : Nat) : Nat :=
  if b ≤ a then a - b else 2 ^ 32 - (b - a)

/-- Allocation `new unsigned char[n]`: `n` cells of unspecified content. -/
def new_array (n : Nat) (heap : Nat → Nat) : List Nat :=
  (List.range n).map heap

/-- The call `std::copy(&x, &x + n, dest)` for a scalar `x` and `dest` an
`unsigned char *`: the bytes stored to `dest[0..n)`.  Element 0 is `x`, the
elements after it come from memory past `x`; each is narrowed modulo 256. -/
def copy_scalar (x : Nat) (past : Nat → Nat) (n : Nat) : List Nat :=
  (List.range n).map (fun i => (if i = 0 then x else past i) % 256)

/-- The bytes `std::copy(p + first, p + last, dest)` reads from the buffer `p`
points to; `none` when the range is reversed or leaves the buffer.  A null
pointer has no cells, so only its empty range can be read. -/
def read_range (p : Option (List Nat)) (first last : Nat) : Option (List Nat) :=
  if first ≤ last ∧ last ≤ (p.getD []).length then
    some (((p.getD []).drop first).take (last - first))
  else none

/-- The buffer `dest` after `src` has been stored at `dest[off ..)`; `none`
when the store runs past the end of `dest`. -/
def write_at (dest : List Nat) (off : Nat) (src : List Nat) : Option (List Nat) :=
  if off + src.length ≤ dest.length then
    some (dest.take off ++ src ++ dest.drop (off + src.length))
  else none

/-- The member `x` when `std::copy(data + first, ..., &x)` ran out of data before
its last element: the copy stores `data[first]` in `x` before it reads the next
byte, so `x` holds that byte when the buffer has it, and its old value
otherwise. -/
def stored_first (data : List Nat) (first old : Nat) : Nat :=
  if first < data.length then data.getD first 0 else old

/-- The payload buffer when the copy of `data[12, length)` did not complete:
over a reversed range (`length < 12`) no store is known; otherwise the bytes
`data` holds from offset 12 on were stored at the front of the fresh buffer
before the copy left `data`. -/
def copied_before_fault (data : List Nat) (length : Nat) (fresh : List Nat) : List Nat :=
  if length < 12 then fresh else data.drop 12 ++ fresh.drop (data.drop 12).length

namespace PTPContainer

/-- Member function `PTPContainer::init` (lines 66-69): sets `length` and `payload` only. -/
def init (this : PTPContainer) : PTPContainer :=
  { this with length := default_length, payload := none }

/-- Constructor `PTPContainer::PTPContainer()` (lines 25-28).  `raw` is the storage the
object is built in: the constructor runs `init` and assigns nothing else. -/
def construct (raw : PTPContainer) : PTPContainer :=
  init raw

/-- Constructor `PTPContainer::PTPContainer(uint16_t type, uint16_t op_code)` (lines 36-40). -/
def construct_type_op_code (raw : PTPContainer) (type op_code : Nat) : PTPContainer :=
  { init raw with type := type, code := op_code }

/-- Member function `PTPContainer::add_param` (lines 81-97).  The new buffer has `new_length`
cells (the whole container length).  The old payload is copied to its front,
then `std::copy(&param, &param + sizeof(uint32_t), ...)` stores four elements
of the `uint32_t` array at `&param`, each narrowed to a byte.  A copy that
leaves a buffer ends the call before `this` is assigned. -/
def add_param (m : Memory) (this : PTPContainer) (param : Nat) : PTPContainer × Outcome Unit :=
  let old_length := sub_u32 this.length default_length
  let new_length := (this.length + 4) % 2 ^ 32
  let new_payload := new_array new_length m.heap
  let copied : Option (List Nat) := do
    let old ← read_range this.payload 0 old_length
    let filled ← write_at new_payload 0 old
    write_at filled old_length (copy_scalar param m.past_param 4)
  match copied with
  | some cells => ({ this with payload := some cells, length := new_length }, Outcome.ok ())
  | none => (this, Outcome.undefined)

/-- Member function `PTPContainer::set_payload` (lines 110-124).  `payload` is the caller's
buffer and `payload_length` the `int` count, here a natural number (a byte
count is not negative; an `int` holds counts below `2 ^ 31`). -/
def set_payload (this : PTPContainer) (payload : List Nat) (payload_length : Nat) :
    PTPContainer × Outcome Unit :=
  let new_length := (default_length + payload_length) % 2 ^ 32
  match read_range (some payload) 0 payload_length with
  | some new_payload => ({ this with payload := some new_payload, length := new_length }, Outcome.ok ())
  | none => (this, Outcome.undefined)

/-- Member function `PTPContainer::pack` (lines 139-151).  Each header copy runs over
`sizeof member` elements starting at the member, so only the first byte of each
group comes from the member itself (its low byte); the others are the low bytes
of what follows the member in memory. -/
def pack (m : Memory) (this : PTPContainer) : Outcome (List Nat) :=
  let packed := new_array this.length m.heap
  let header_size := 4 + 2 + 2 + 4
  Outcome.ofOption (do
    let p0 ← write_at packed 0 (copy_scalar this.length m.past_length 4)
    let p1 ← write_at p0 4 (copy_scalar this.type m.past_type 2)
    let p2 ← write_at p1 6 (copy_scalar this.code m.past_code 2)
    let p3 ← write_at p2 8 (copy_scalar this.transaction_id m.past_transaction_id 4)
    let body ← if header_size ≤ this.length then
        read_range this.payload 0 (this.length - header_size) else none
    write_at p3 12 body)

/-- Member function `PTPContainer::get_payload` (lines 159-168): the copy it
returns, with the count stored through `size_out`.  The count is
`length - default_length` computed in `uint32_t` and stored in an `int`: a value
of `2 ^ 31` or more is a negative `int`, a negative array size and a reversed
copy range.  The copy moves bytes to bytes, so every cell is copied whole. -/
def get_payload (this : PTPContainer) : Outcome (List Nat × Nat) :=
  let size_out := sub_u32 this.length default_length
  if 2 ^ 31 ≤ size_out then Outcome.undefined
  else
    match read_range this.payload 0 size_out with
    | some out => Outcome.ok (out, size_out)
    | none => Outcome.undefined

/-- Member function `PTPContainer::get_length` (lines 175-177). -/
def get_length (this : PTPContainer) : Nat :=
  this.length

/-- Member function `PTPContainer::unpack` (lines 194-213), statement by statement.  The old
payload is released first.  Each header copy stores the single byte at the
start of its range in the member (`length := data[0]`, `type := data[4]`,
`code := data[6]`, `transaction_id := data[8]`); the bytes after it are stored
past the member.  A copy that reads outside `data`, or runs over a reversed
range, ends the call as undefined; the container paired with that end holds
the elements the copy stored before it left `data`. -/
def unpack (m : Memory) (this : PTPContainer) (data : List Nat) : PTPContainer × Outcome Unit :=
  let s0 := { this with payload := none }
  match read_range (some data) 0 4 with
  | none => ({ s0 with length := stored_first data 0 s0.length }, Outcome.undefined)
  | some b0 =>
    let s1 := { s0 with length := b0.headD 0 }
    match read_range (some data) 4 6 with
    | none => ({ s1 with type := stored_first data 4 s1.type }, Outcome.undefined)
    | some b1 =>
      let s2 := { s1 with type := b1.headD 0 }
      match read_range (some data) 6 8 with
      | none => ({ s2 with code := stored_first data 6 s2.code }, Outcome.undefined)
      | some b2 =>
        let s3 := { s2 with code := b2.headD 0 }
        match read_range (some data) 8 12 with
        | none =>
          ({ s3 with transaction_id := stored_first data 8 s3.transaction_id }, Outcome.undefined)
        | some b3 =>
          let s4 := { s3 with transaction_id := b3.headD 0 }
          let fresh := new_array (sub_u32 s4.length 12) m.heap
          let s5 := { s4 with payload := some fresh }
          match read_range (some data) 12 s5.length with
          | none =>
            ({ s5 with payload := some (copied_before_fault data s5.length fresh) },
              Outcome.undefined)
          | some body => ({ s5 with payload := some body }, Outcome.ok ())

/-- Member function `PTPContainer::get_param_n` (lines 223-245).  The test for "no payload" is
`payload == NULL`.  The bound test is computed in `uint32_t`.  The final copy
stores `payload[first_byte]` in `out` and the next three bytes past `out`; the
function returns `out`. -/
def get_param_n (this : PTPContainer) (n : Nat) : Outcome Nat :=
  match this.payload with
  | none => Outcome.thrown LIBPTP_PP_ERRORS.ERR_PTPCONTAINER_NO_PAYLOAD
  | some cells =>
    let first_byte := (4 * n) % 2 ^ 32
    if sub_u32 this.length 12 < (4 + 4 * n) % 2 ^ 32 then
      Outcome.thrown LIBPTP_PP_ERRORS.ERR_PTPCONTAINER_INVALID_PARAM
    else
      match read_range (some cells) first_byte (first_byte + 4) with
      | some bytes => Outcome.ok (bytes.headD 0)
      | none => Outcome.undefined

/-- Constructor `PTPContainer::PTPContainer(unsigned char * data)` (lines
48-51): it calls `unpack` on the storage as it is, without `init`.  `unpack`
begins with `delete[] this->payload`, and in raw storage that member is
whatever the storage held: a null pointer, on which `delete[]` does nothing, or
some other value (`some _` here), which no `new[]` returned, so that `delete[]`
on it is undefined. -/
def construct_data (m : Memory) (raw : PTPContainer) (data : List Nat) :
    PTPContainer × Outcome Unit :=
  match raw.payload with
  | none => unpack m raw data
  | some _ => (raw, Outcome.undefined)

end PTPContainer

end PTP

/-! ## The spec's vocabulary -/

namespace PTP

/-- The error signals of the spec (section 6). -/
inductive Signal where
  | NoPayload
  | InvalidParameter
  | MalformedMessage
  | AllocationFailure
  deriving DecidableEq, Repr

/-- The spec's signal for each error constant the library can throw.  The enum
of `libptp++.hpp` has a constant for `NoPayload` and for `InvalidParameter`, and
none for the other two signals. -/
def signal_of : LIBPTP_PP_ERRORS → Option Signal
  | LIBPTP_PP_ERRORS.ERR_PTPCONTAINER_NO_PAYLOAD => some Signal.NoPayload
  | LIBPTP_PP_ERRORS.ERR_PTPCONTAINER_INVALID_PARAM => some Signal.InvalidParameter
  | _ => none

/-- A call "fails with" a signal when it throws an error constant standing for it. -/
def fails_with {α : Type} (o : Outcome α) (s : Signal) : Prop :=
  ∃ e, o = Outcome.thrown e ∧ signal_of e = some s

/-- The unsigned value of a little-endian byte sequence. -/
def le_value : List Nat → Nat
  | [] => 0
  | b :: rest => b + 256 * le_value rest

/-- The `k`-byte little-endian representation of `x`. -/
def le_bytes : Nat → Nat → List Nat
  | 0, _ => []
  | k + 1, x => x % 256 :: le_bytes k (x / 256)

/-- The length an input buffer declares: the little-endian value of bytes 0-3. -/
def declared_length (data : List Nat) : Nat :=
  le_value (data.take 4)

/-- The payload a container holds: the `length - 12` bytes at the front of its
buffer, which are the bytes `pack` and `get_payload` copy out of it. -/
def payload_bytes (c : PTPContainer) : List Nat :=
  (c.payload.getD []).take (c.length - default_length)

/-- The spec's invariant `length == 12 + payload.size()`. -/
def Invariant (c : PTPContainer) : Prop :=
  c.length = default_length + (payload_bytes c).length

/-- The wire format of the spec (section 4.4): every header field in full
little-endian width, then the payload. -/
def wire_layout (c : PTPContainer) : List Nat :=
  le_bytes 4 c.length ++ le_bytes 2 c.type ++ le_bytes 2 c.code ++ le_bytes 4 c.transaction_id
    ++ payload_bytes c

/-- The calls `add_param(p0)`, ..., `add_param(p_{k-1})` made one after the
other, each with the memory it finds; a call that does not complete ends the
sequence. -/
def add_params (this : PTPContainer) : List (Memory × Nat) → PTPContainer × Outcome Unit
  | [] => (this, Outcome.ok ())
  | call :: rest =>
    match PTPContainer.add_param call.1 this call.2 with
    | (next, Outcome.ok ()) => add_params next rest
    | (next, Outcome.thrown e) => (next, Outcome.thrown e)
    | (next, Outcome.undefined) => (next, Outcome.undefined)

/-- An input buffer `unpack` is meant to accept: at least 12 bytes, and a
declared length between 12 and the size of the buffer. -/
def valid_input (data : List Nat) : Prop :=
  12 ≤ data.length ∧ 12 ≤ declared_length data ∧ declared_length data ≤ data.length

/-- A memory whose unspecified cells all hold zero. -/
def zero_memory : Memory :=
  ⟨fun _ => 0, fun _ => 0, fun _ => 0, fun _ => 0, fun _ => 0, fun _ => 0⟩

/-- Storage holding zeros, for a container to be constructed in. -/
def blank : PTPContainer :=
  ⟨0, none, 0, 0, 0⟩

/-- Scenario A of the spec: `new(type = 1, code = 0x1001)` (transaction id 0),
before `add_param(1)`. -/
def scenario_A : PTPContainer :=
  PTPContainer.construct_type_op_code blank 1 0x1001

/-- Scenario B of the spec: the 12-byte message `0C 00 00 00 03 00 01 20 05 00 00 00`. -/
def scenario_B : List Nat :=
  [0x0C, 0, 0, 0, 3, 0, 0x01, 0x20, 5, 0, 0, 0]

/-- Scenario C of the spec: `set_payload` of eight `0xAA` bytes on a fresh container. -/
def scenario_C : PTPContainer :=
  (PTPContainer.set_payload (PTPContainer.construct blank) (List.replicate 8 0xAA) 8).1

/-- A container holding one parameter, `01 00 00 00`, as its payload. -/
def one_param : PTPContainer :=
  ⟨16, some [1, 0, 0, 0], 1, 0x1001, 0⟩

/-- A valid input buffer of 256 bytes: its length field `00 01 00 00` declares
256, the rest is zero. -/
def declares_256 : List Nat :=
  0 :: 1 :: 0 :: 0 :: List.replicate 252 0

/-- Storage holding leftover values: every member is 7 and the payload member
is not a null pointer. -/
def stale : PTPContainer :=
  ⟨7, some [0xEE], 7, 7, 7⟩

/-- A container whose payload is the three bytes `01 02 03` (as `set_payload`
leaves it): the payload size is not a multiple of 4. -/
def three_bytes : PTPContainer :=
  ⟨15, some [1, 2, 3], 1, 0x1001, 0⟩

/-- A container whose length is below the header size, so that its invariant
does not hold. -/
def too_short : PTPContainer :=
  ⟨5, none, 1, 0x1001, 0⟩

/-- A container whose payload fills the 32-bit length field: `2 ^ 32 - 16`
payload bytes, `length = 2 ^ 32 - 4`. -/
def huge : PTPContainer :=
  ⟨2 ^ 32 - 4, some (List.replicate (2 ^ 32 - 16) 0), 1, 0x1001, 0⟩

end PTP

/-! ## Lemmas on the memory operations -/

namespace PTP

open PTPContainer

theorem length_new_array (n : Nat) (heap : Nat → Nat) : (new_array n heap).length = n := by
  simp [new_array]

theorem length_copy_scalar (x : Nat) (past : Nat → Nat) (n : Nat) :
    (copy_scalar x past n).length = n := by
  simp [copy_scalar]

theorem copy_scalar_four (x : Nat) (past : Nat → Nat) :
    copy_scalar x past 4 = [x % 256, past 1 % 256, past 2 % 256, past 3 % 256] := by
  simp [copy_scalar, List.range_succ]

theorem copy_scalar_two (x : Nat) (past : Nat → Nat) :
    copy_scalar x past 2 = [x % 256, past 1 % 256] := by
  simp [copy_scalar, List.range_succ]

theorem read_range_inside (p : Option (List Nat)) (first last : Nat)
    (h1 : first ≤ last) (h2 : last ≤ (p.getD []).length) :
    read_range p first last = some (((p.getD []).drop first).take (last - first)) := by
  simp [read_range, h1, h2]

theorem read_range_outside (p : Option (List Nat)) (first last : Nat)
    (h : last < first ∨ (p.getD []).length < last) :
    read_range p first last = none := by
  unfold read_range
  rw [if_neg]
  omega

theorem write_at_inside (dest src : List Nat) (off : Nat) (h : off + src.length ≤ dest.length) :
    write_at dest off src = some (dest.take off ++ src ++ dest.drop (off + src.length)) := by
  simp [write_at, h]

theorem write_at_outside (dest src : List Nat) (off : Nat) (h : dest.length < off + src.length) :
    write_at dest off src = none := by
  unfold write_at
  rw [if_neg]
  omega

theorem sub_u32_of_le (a b : Nat) (h : b ≤ a) : sub_u32 a b = a - b := by
  simp [sub_u32, h]

theorem sub_u32_eq_mod (a b : Nat) (ha : a < 2 ^ 32) (hb : b < 2 ^ 32) :
    sub_u32 a b = (a + 2 ^ 32 - b) % 2 ^ 32 := by
  unfold sub_u32
  split
  · rw [show a + 2 ^ 32 - b = (a - b) + 1 * 2 ^ 32 by omega, Nat.add_mul_mod_self_right]
    exact (Nat.mod_eq_of_lt (by omega)).symm
  · rw [Nat.mod_eq_of_lt (show a + 2 ^ 32 - b < 2 ^ 32 by omega)]
    omega

theorem headD_take_drop (l : List Nat) (k n : Nat) (hn : 0 < n) :
    ((l.drop k).take n).headD 0 = l.getD k 0 := by
  cases n with
  | zero => omega
  | succ n =>
    cases h : l.drop k with
    | nil =>
      have : l.length ≤ k := by simpa using h
      simp [List.getD, List.getElem?_eq_none this]
    | cons a t =>
      have hk : k < l.length := by
        by_contra hc
        have : l.drop k = [] := List.drop_eq_nil_of_le (by omega)
        simp [this] at h
      have : l[k]? = some a := by
        have := List.head?_drop l k
        rw [h] at this
        simpa using this.symm
      simp [List.getD, this]

end PTP

/-! ## What each member function computes -/

namespace PTP

open PTPContainer

theorem headD_take_four (data : List Nat) : ((data.drop 0).take (4 - 0)).headD 0 = data.headD 0 := by
  cases data <;> simp

theorem unpack_complete (m : Memory) (c : PTPContainer) (data : List Nat)
    (h12 : 12 ≤ data.length) (hlo : 12 ≤ data.headD 0) (hhi : data.headD 0 ≤ data.length) :
    unpack m c data =
      (⟨data.headD 0, some ((data.drop 12).take (data.headD 0 - 12)),
          data.getD 4 0, data.getD 6 0, data.getD 8 0⟩, Outcome.ok ()) := by
  unfold unpack
  rw [read_range_inside _ 0 4 (by omega) (by simp only [Option.getD_some]; omega),
    read_range_inside _ 4 6 (by omega) (by simp only [Option.getD_some]; omega),
    read_range_inside _ 6 8 (by omega) (by simp only [Option.getD_some]; omega),
    read_range_inside _ 8 12 (by omega) (by simp only [Option.getD_some]; omega)]
  simp only [Option.getD_some, headD_take_four, headD_take_drop _ 4 (6 - 4) (by omega),
    headD_take_drop _ 6 (8 - 6) (by omega), headD_take_drop _ 8 (12 - 8) (by omega)]
  rw [read_range_inside _ 12 _ hlo (by simp only [Option.getD_some]; omega)]
  simp

theorem unpack_undefined (m : Memory) (c : PTPContainer) (data : List Nat)
    (h : data.length < 12 ∨ data.headD 0 < 12 ∨ data.length < data.headD 0) :
    (unpack m c data).2 = Outcome.undefined := by
  unfold unpack
  by_cases h4 : 4 ≤ data.length
  · rw [read_range_inside _ 0 4 (by omega) (by simp only [Option.getD_some]; omega)]
    by_cases h6 : 6 ≤ data.length
    · rw [read_range_inside _ 4 6 (by omega) (by simp only [Option.getD_some]; omega)]
      by_cases h8 : 8 ≤ data.length
      · rw [read_range_inside _ 6 8 (by omega) (by simp only [Option.getD_some]; omega)]
        by_cases h12 : 12 ≤ data.length
        · rw [read_range_inside _ 8 12 (by omega) (by simp only [Option.getD_some]; omega)]
          simp only [Option.getD_some, headD_take_four]
          rw [read_range_outside _ 12 _ (by simp only [Option.getD_some]; omega)]
        · rw [read_range_outside _ 8 12 (by simp only [Option.getD_some]; omega)]
      · rw [read_range_outside _ 6 8 (by simp only [Option.getD_some]; omega)]
    · rw [read_range_outside _ 4 6 (by simp only [Option.getD_some]; omega)]
  · rw [read_range_outside _ 0 4 (by simp only [Option.getD_some]; omega)]

theorem invariant_iff (c : PTPContainer) :
    Invariant c ↔ 12 ≤ c.length ∧ c.length - 12 ≤ (c.payload.getD []).length := by
  unfold Invariant payload_bytes default_length
  rw [List.length_take]
  omega

theorem add_param_complete (m : Memory) (c : PTPContainer) (p : Nat)
    (hinv : Invariant c) (hfit : c.length + 4 < 2 ^ 32) :
    add_param m c p =
      ({ c with
          payload := some (payload_bytes c ++ copy_scalar p m.past_param 4 ++
            (new_array (c.length + 4) m.heap).drop (c.length - 12 + 4)),
          length := c.length + 4 }, Outcome.ok ()) := by
  obtain ⟨hlo, hcap⟩ := (invariant_iff c).1 hinv
  have hlen : (payload_bytes c).length = c.length - 12 := by
    unfold payload_bytes default_length
    rw [List.length_take]
    omega
  unfold add_param
  simp only [default_length, sub_u32_of_le _ _ hlo, Nat.mod_eq_of_lt hfit]
  rw [read_range_inside _ 0 _ (by omega) hcap]
  have hpb : List.take (c.length - 12 - 0) (List.drop 0 (c.payload.getD [])) = payload_bytes c := by
    simp [payload_bytes, default_length]
  rw [hpb]
  simp only [Option.bind_eq_bind, Option.some_bind]
  rw [write_at_inside _ _ 0 (by rw [length_new_array]; omega)]
  simp only [Option.some_bind, List.take_zero, List.nil_append, Nat.zero_add]
  rw [write_at_inside _ _ _ (by simp only [List.length_append, List.length_drop, length_new_array, length_copy_scalar]; omega)]
  simp only [hlen, length_copy_scalar]
  rw [List.take_left' hlen, ← hlen, List.drop_append, List.drop_drop, hlen]

theorem add_param_wraps (m : Memory) (c : PTPContainer) (p : Nat)
    (hinv : Invariant c) (h32 : c.length < 2 ^ 32) (hwrap : 2 ^ 32 ≤ c.length + 4) :
    add_param m c p = (c, Outcome.undefined) := by
  obtain ⟨hlo, hcap⟩ := (invariant_iff c).1 hinv
  have hnew : (c.length + 4) % 2 ^ 32 = c.length + 4 - 2 ^ 32 := by
    rw [Nat.mod_eq_sub_mod hwrap, Nat.mod_eq_of_lt (by omega)]
  unfold add_param
  simp only [default_length, sub_u32_of_le _ _ hlo, hnew]
  rw [read_range_inside _ 0 _ (by omega) hcap]
  simp only [Option.bind_eq_bind, Option.some_bind]
  rw [write_at_outside _ _ 0 (by
    simp only [length_new_array, List.length_take, List.length_drop]
    omega)]
  rfl

theorem set_payload_complete (c : PTPContainer) (bytes : List Nat) :
    set_payload c bytes bytes.length =
      ({ c with payload := some bytes, length := (12 + bytes.length) % 2 ^ 32 }, Outcome.ok ()) := by
  unfold set_payload
  rw [read_range_inside _ 0 _ (by omega) (by simp)]
  simp [default_length]

theorem get_param_n_null (c : PTPContainer) (n : Nat) (h : c.payload = none) :
    get_param_n c n = Outcome.thrown LIBPTP_PP_ERRORS.ERR_PTPCONTAINER_NO_PAYLOAD := by
  unfold get_param_n
  rw [h]

theorem get_param_n_inside (c : PTPContainer) (cells : List Nat) (n : Nat)
    (hp : c.payload = some cells) (hlo : 12 ≤ c.length) (h32 : c.length < 2 ^ 32)
    (hcap : c.length - 12 ≤ cells.length) (hn : 4 * (n + 1) ≤ c.length - 12) :
    get_param_n c n = Outcome.ok (cells.getD (4 * n) 0) := by
  unfold get_param_n
  rw [hp]
  simp only [sub_u32_of_le _ _ hlo]
  rw [Nat.mod_eq_of_lt (show 4 * n < 2 ^ 32 by omega),
    Nat.mod_eq_of_lt (show 4 + 4 * n < 2 ^ 32 by omega), if_neg (by omega)]
  rw [read_range_inside _ _ _ (by omega) (by simp only [Option.getD_some]; omega)]
  simp only [Option.getD_some]
  rw [headD_take_drop _ _ _ (by omega)]

theorem get_param_n_beyond (c : PTPContainer) (cells : List Nat) (n : Nat)
    (hp : c.payload = some cells) (hlo : 12 ≤ c.length)
    (hn : c.length - 12 < 4 * (n + 1)) (hsmall : 4 * (n + 1) < 2 ^ 32) :
    get_param_n c n = Outcome.thrown LIBPTP_PP_ERRORS.ERR_PTPCONTAINER_INVALID_PARAM := by
  unfold get_param_n
  rw [hp]
  simp only [sub_u32_of_le _ _ hlo]
  rw [Nat.mod_eq_of_lt (show 4 + 4 * n < 2 ^ 32 by omega), if_pos (by omega)]

theorem write_at_after (pre src rest : List Nat) (k : Nat) (hk : pre.length = k)
    (hs : k + src.length ≤ rest.length) :
    write_at (pre ++ rest.drop k) k src = some ((pre ++ src) ++ rest.drop (k + src.length)) := by
  rw [write_at_inside _ _ _ (by simp only [List.length_append, List.length_drop]; omega)]
  rw [List.take_left' hk, ← hk, List.drop_append, List.drop_drop]

theorem pack_complete (m : Memory) (c : PTPContainer) (hinv : Invariant c) :
    pack m c = Outcome.ok
      (copy_scalar c.length m.past_length 4 ++ copy_scalar c.type m.past_type 2 ++
        copy_scalar c.code m.past_code 2 ++
        copy_scalar c.transaction_id m.past_transaction_id 4 ++ payload_bytes c) := by
  obtain ⟨hlo, hcap⟩ := (invariant_iff c).1 hinv
  have hlen : (payload_bytes c).length = c.length - 12 := by
    unfold payload_bytes default_length
    rw [List.length_take]
    omega
  have hP : (new_array c.length m.heap).length = c.length := length_new_array _ _
  unfold pack
  simp only [Option.bind_eq_bind]
  have h0 := write_at_after [] (copy_scalar c.length m.past_length 4) (new_array c.length m.heap) 0
    rfl (by rw [length_copy_scalar]; omega)
  simp only [List.drop_zero, List.nil_append, Nat.zero_add, length_copy_scalar] at h0
  rw [h0, Option.some_bind]
  rw [write_at_after _ _ _ 4 (length_copy_scalar _ _ _) (by rw [length_copy_scalar]; omega),
    Option.some_bind]
  simp only [length_copy_scalar]
  rw [write_at_after _ _ _ 6 (by simp [length_copy_scalar]) (by rw [length_copy_scalar]; omega),
    Option.some_bind]
  simp only [length_copy_scalar]
  rw [write_at_after _ _ _ 8 (by simp [length_copy_scalar]) (by rw [length_copy_scalar]; omega),
    Option.some_bind]
  simp only [length_copy_scalar]
  rw [if_pos (by omega), read_range_inside _ 0 _ (by omega) (by omega), Option.some_bind]
  have hpb : List.take (c.length - (4 + 2 + 2 + 4) - 0) (List.drop 0 (c.payload.getD [])) =
      payload_bytes c := by
    simp [payload_bytes, default_length]
  rw [hpb, write_at_after _ _ _ 12 (by simp [length_copy_scalar]) (by omega)]
  rw [List.drop_of_length_le (by omega), List.append_nil]
  rfl

end PTP

/-! ## The claims -/

namespace PTP

open PTPContainer

theorem declared_length_ge_first (data : List Nat) : data.headD 0 ≤ declared_length data := by
  cases data with
  | nil => simp
  | cons a t => simp [declared_length, le_value]

theorem declared_length_small (data : List Nat) (h : declared_length data < 256) :
    declared_length data = data.headD 0 := by
  cases data with
  | nil => simp [declared_length, le_value]
  | cons a t =>
    simp only [declared_length, List.take_succ_cons, le_value, List.headD_cons] at h ⊢
    omega

theorem not_fails_with_undefined {α : Type} (s : Signal) :
    ¬ fails_with (Outcome.undefined : Outcome α) s := by
  rintro ⟨e, h, _⟩
  cases h

theorem invariant_scenario_A : Invariant scenario_A := by
  simp [Invariant, payload_bytes, scenario_A, construct_type_op_code, init, default_length, blank]

theorem invariant_one_param : Invariant one_param := by
  simp [Invariant, payload_bytes, one_param, default_length]

/-- C1 (round trip), evaluated on the code at the command container of
scenario A: type 1, code 0x1001, transaction id 0, no payload, so its invariant
holds.  `pack` returns a buffer, `unpack` of that buffer completes, and the
container it leaves has code 0x0001, not 0x1001: of every header field only the
low byte makes the round trip, whatever the surrounding memory holds. -/
theorem C1_round_trip_keeps_low_byte_only (m m2 : Memory) (c2 : PTPContainer) :
    Invariant scenario_A ∧ scenario_A.code = 0x1001 ∧
      ∃ bytes, pack m scenario_A = Outcome.ok bytes ∧
        unpack m2 c2 bytes = (⟨12, some [], 1, 1, 0⟩, Outcome.ok ()) := by
  refine ⟨invariant_scenario_A, rfl, _, pack_complete m _ invariant_scenario_A, ?_⟩
  simp only [copy_scalar_four, copy_scalar_two]
  rfl

/-- C2, counterexample: on the 5-byte buffer and on the 20-byte buffer
declaring length 100 (the spec's two witnesses) `unpack` does not fail with
`MalformedMessage`: it reads past the end of the buffer. -/
theorem C2_unpack_raises_no_MalformedMessage :
    ¬ fails_with (unpack zero_memory (construct blank) [0x0C, 0, 0, 0, 3]).2
        Signal.MalformedMessage ∧
      ¬ fails_with (unpack zero_memory (construct blank)
        (100 :: 0 :: 0 :: 0 :: List.replicate 16 0)).2 Signal.MalformedMessage := by
  refine ⟨?_, ?_⟩
  · have h : (unpack zero_memory (construct blank) [0x0C, 0, 0, 0, 3]).2 = Outcome.undefined := by
      decide
    rw [h]
    exact not_fails_with_undefined _
  · have h : (unpack zero_memory (construct blank)
        (100 :: 0 :: 0 :: 0 :: List.replicate 16 0)).2 = Outcome.undefined := by
      decide
    rw [h]
    exact not_fails_with_undefined _

/-- C2, as amended: `unpack` has no validation and no `MalformedMessage`.  On a
buffer shorter than 12 bytes, or whose declared length is below 12, or whose
size is below its declared length (a declared length below 256, which byte 0
holds alone), the call ends in undefined behaviour (a read outside the buffer
or a reversed copy range), and it fails with no signal at all. -/
theorem C2_unpack_malformed_is_undefined (m : Memory) (c : PTPContainer) (data : List Nat)
    (h : data.length < 12 ∨ declared_length data < 12 ∨
      (declared_length data < 256 ∧ data.length < declared_length data)) :
    (unpack m c data).2 = Outcome.undefined ∧ ∀ s, ¬ fails_with (unpack m c data).2 s := by
  have h2 : data.length < 12 ∨ data.headD 0 < 12 ∨ data.length < data.headD 0 := by
    have h1 := declared_length_ge_first data
    have h3 := declared_length_small data
    omega
  rw [unpack_undefined m c data h2]
  exact ⟨rfl, fun s => not_fails_with_undefined s⟩

/-- C2, witness: the amended statement at the 5-byte buffer. -/
theorem C2_unpack_malformed_is_undefined_witness :
    (unpack zero_memory (construct blank) [0x0C, 0, 0, 0, 3]).2 = Outcome.undefined ∧
      ∀ s, ¬ fails_with (unpack zero_memory (construct blank) [0x0C, 0, 0, 0, 3]).2 s :=
  C2_unpack_malformed_is_undefined zero_memory (construct blank) [0x0C, 0, 0, 0, 3]
    (Or.inl (by decide))

/-- C4 (unpack postcondition), evaluated on the code at scenario B: the call
completes with length 12, type 3, transaction id 5 and an empty payload, and
with code 0x0001, where bytes 6-7 (`01 20`) are the little-endian 0x2001.  Each
header member receives the first byte of its field only. -/
theorem C4_unpack_scenario_B_reads_one_byte (m : Memory) (c : PTPContainer) :
    unpack m c scenario_B = (⟨12, some [], 3, 1, 5⟩, Outcome.ok ()) ∧
      le_value ((scenario_B.drop 6).take 2) = 0x2001 := by
  exact ⟨rfl, by decide⟩

/-- C5 (pack layout), evaluated on the code at the container scenario A asks
for (length 16, type 1, code 0x1001, transaction id 0, payload `01 00 00 00`;
its invariant holds).  The spec's layout is `10 00 00 00 01 00 01 10 ...`.
`pack` writes the low byte of each header field at offsets 0, 4, 6, 8; the
bytes at offsets 1-3, 5, 7, 9-11 are the low bytes of what follows the member
in memory.  No byte depends on the high byte of `code`: the container with code
0x0001 packs to the same bytes. -/
theorem C5_pack_writes_low_bytes_only (m : Memory) :
    Invariant one_param ∧
      wire_layout one_param = [0x10, 0, 0, 0, 1, 0, 0x01, 0x10, 0, 0, 0, 0, 1, 0, 0, 0] ∧
      pack m one_param = Outcome.ok
        [0x10, m.past_length 1 % 256, m.past_length 2 % 256, m.past_length 3 % 256,
          1, m.past_type 1 % 256, 0x01, m.past_code 1 % 256,
          0, m.past_transaction_id 1 % 256, m.past_transaction_id 2 % 256,
          m.past_transaction_id 3 % 256, 1, 0, 0, 0] ∧
      pack m { one_param with code := 0x0001 } = pack m one_param := by
  have h2 : Invariant { one_param with code := 0x0001 } := by
    simp [Invariant, payload_bytes, one_param, default_length]
  refine ⟨invariant_one_param, by decide, ?_, ?_⟩
  · rw [pack_complete m _ invariant_one_param]
    simp only [copy_scalar_four, copy_scalar_two]
    rfl
  · rw [pack_complete m _ invariant_one_param, pack_complete m _ h2]
    simp only [copy_scalar_four, copy_scalar_two]
    rfl

theorem huge_length : huge.length = 2 ^ 32 - 4 := rfl

theorem huge_payload : huge.payload = some (List.replicate (2 ^ 32 - 16) 0) := rfl

theorem invariant_huge : Invariant huge := by
  rw [invariant_iff, huge_length, huge_payload, Option.getD_some, List.length_replicate]
  norm_num

theorem invariant_construct (raw : PTPContainer) : Invariant (construct raw) := by
  simp [Invariant, payload_bytes, construct, init, default_length]

theorem invariant_construct_type_op_code (raw : PTPContainer) (type op_code : Nat) :
    Invariant (construct_type_op_code raw type op_code) := by
  simp [Invariant, payload_bytes, construct_type_op_code, init, default_length]

theorem invariant_after_add_param (m : Memory) (c : PTPContainer) (p : Nat)
    (hinv : Invariant c) (hfit : c.length + 4 < 2 ^ 32) :
    (add_param m c p).2 = Outcome.ok () ∧ Invariant (add_param m c p).1 := by
  obtain ⟨hlo, hcap⟩ := (invariant_iff c).1 hinv
  have hlen : (payload_bytes c).length = c.length - 12 := by
    unfold payload_bytes default_length
    rw [List.length_take]
    omega
  rw [add_param_complete m c p hinv hfit]
  refine ⟨rfl, ?_⟩
  rw [invariant_iff]
  simp only [Option.getD_some, List.length_append, List.length_drop, length_new_array,
    length_copy_scalar, hlen]
  omega

theorem invariant_after_set_payload (c : PTPContainer) (bytes : List Nat)
    (hint : bytes.length < 2 ^ 31) :
    (set_payload c bytes bytes.length).2 = Outcome.ok () ∧
      Invariant (set_payload c bytes bytes.length).1 := by
  rw [set_payload_complete]
  refine ⟨rfl, ?_⟩
  rw [invariant_iff]
  simp only [Option.getD_some]
  rw [Nat.mod_eq_of_lt (by omega)]
  omega

theorem invariant_after_unpack (m : Memory) (c : PTPContainer) (data : List Nat)
    (h : (unpack m c data).2 = Outcome.ok ()) : Invariant (unpack m c data).1 := by
  by_cases hm : data.length < 12 ∨ data.headD 0 < 12 ∨ data.length < data.headD 0
  · rw [unpack_undefined m c data hm] at h
    cases h
  · rw [unpack_complete m c data (by omega) (by omega) (by omega), invariant_iff]
    simp only [Option.getD_some, List.length_take, List.length_drop]
    omega

/-- C6, counterexample: the container `huge` satisfies the invariant with
`length = 2 ^ 32 - 4`; `add_param` on it computes the new length `0` in 32
bits, allocates no cell and overruns that buffer with the old payload: the call
does not complete, so the invariant `length == 12 + payload.size()` is not
carried to a container with four more payload bytes. -/
theorem C6_add_param_wraps_at_32_bits :
    Invariant huge ∧ huge.length + 4 = 2 ^ 32 ∧
      add_param zero_memory huge 0 = (huge, Outcome.undefined) :=
  ⟨invariant_huge, by rw [huge_length]; norm_num,
    add_param_wraps zero_memory huge 0 invariant_huge (by rw [huge_length]; norm_num)
      (by rw [huge_length]; norm_num)⟩

/-- C6, as amended: the invariant `length == 12 + payload.size()` holds after
both constructors; `add_param` completes and preserves it whenever the new
length `length + 4` fits in 32 bits; `set_payload` completes and establishes it
for every byte count an `int` holds; every `unpack` that completes establishes
it. -/
theorem C6_length_invariant_within_32_bits (m : Memory) (raw c : PTPContainer)
    (type op_code p : Nat) (bytes data : List Nat) :
    Invariant (construct raw) ∧ Invariant (construct_type_op_code raw type op_code) ∧
      (Invariant c → c.length + 4 < 2 ^ 32 →
        (add_param m c p).2 = Outcome.ok () ∧ Invariant (add_param m c p).1) ∧
      (bytes.length < 2 ^ 31 →
        (set_payload c bytes bytes.length).2 = Outcome.ok () ∧
          Invariant (set_payload c bytes bytes.length).1) ∧
      ((unpack m c data).2 = Outcome.ok () → Invariant (unpack m c data).1) :=
  ⟨invariant_construct raw, invariant_construct_type_op_code raw type op_code,
    invariant_after_add_param m c p, invariant_after_set_payload c bytes,
    invariant_after_unpack m c data⟩

/-- C6, witness: the amended statement at scenario A followed by
`add_param(1)`, at `set_payload` of eight bytes, and at `unpack` of scenario B. -/
theorem C6_length_invariant_within_32_bits_witness :
    Invariant (add_param zero_memory scenario_A 1).1 ∧
      Invariant (set_payload (construct blank) (List.replicate 8 0xAA) 8).1 ∧
      Invariant (unpack zero_memory blank scenario_B).1 :=
  ⟨((C6_length_invariant_within_32_bits zero_memory blank scenario_A 1 0x1001 1 [] []).2.2.1
      invariant_scenario_A (by decide)).2,
    ((C6_length_invariant_within_32_bits zero_memory blank (construct blank) 1 0x1001 1
      (List.replicate 8 0xAA) []).2.2.2.1 (by decide)).2,
    (C6_length_invariant_within_32_bits zero_memory blank blank 1 0x1001 1 []
      scenario_B).2.2.2.2 (by decide)⟩

/-- C7 (append accumulation, values), evaluated on the code: on a freshly
constructed container `add_param(p)` completes, and `get_param_n(0)` then
returns `p % 256`, for every `p` and whatever the surrounding memory holds.
For `p = 0x100` the value read back is 0. -/
theorem C7_param_read_back_is_low_byte (m : Memory) (raw : PTPContainer) (p : Nat) :
    (add_param m (construct raw) p).2 = Outcome.ok () ∧
      get_param_n (add_param m (construct raw) p).1 0 = Outcome.ok (p % 256) :=
  ⟨rfl, rfl⟩

/-- C8 (bounds of get_param_n), evaluated on the code at the 8-byte payload of
scenario C.  Indices 2 and 1 behave as the claim says.  For `n = 0x40000000`
the bound `4 + 4 * n` wraps to 4 and the offset `4 * n` to 0: the call returns
parameter 0.  For `n = 0x3FFFFFFF` the bound wraps to 0 and the call reads
outside the payload.  Neither fails with `InvalidParameter`. -/
theorem C8_get_param_n_bound_wraps :
    (payload_bytes scenario_C).length = 8 ∧
      get_param_n scenario_C 2 =
        Outcome.thrown LIBPTP_PP_ERRORS.ERR_PTPCONTAINER_INVALID_PARAM ∧
      get_param_n scenario_C 1 = Outcome.ok 0xAA ∧
      get_param_n scenario_C 0x40000000 = Outcome.ok 0xAA ∧
      get_param_n scenario_C 0x3FFFFFFF = Outcome.undefined := by
  decide

/-- C9 (get_param_n on an empty payload), evaluated on the code: after `unpack`
of the header-only message of scenario B, and after `set_payload` of zero
bytes, the payload is empty but the pointer is not `NULL`, and `get_param_n(0)`
throws `ERR_PTPCONTAINER_INVALID_PARAM`, the constant of `InvalidParameter`. -/
theorem C9_empty_payload_gives_InvalidParameter (m : Memory) (c : PTPContainer) :
    payload_bytes (unpack m c scenario_B).1 = [] ∧
      get_param_n (unpack m c scenario_B).1 0 =
        Outcome.thrown LIBPTP_PP_ERRORS.ERR_PTPCONTAINER_INVALID_PARAM ∧
      payload_bytes (set_payload c [] 0).1 = [] ∧
      get_param_n (set_payload c [] 0).1 0 =
        Outcome.thrown LIBPTP_PP_ERRORS.ERR_PTPCONTAINER_INVALID_PARAM ∧
      signal_of LIBPTP_PP_ERRORS.ERR_PTPCONTAINER_INVALID_PARAM = some Signal.InvalidParameter :=
  ⟨rfl, rfl, rfl, rfl, rfl⟩

/-- C10 (value of get_param_n), evaluated on the code at scenario C: the
payload is eight `0xAA` bytes, bytes 0-3 are the little-endian 0xAAAAAAAA, and
`get_param_n(0)` returns 0xAA, the single byte `payload[0]`. -/
theorem C10_get_param_n_scenario_C_is_one_byte :
    payload_bytes scenario_C = List.replicate 8 0xAA ∧
      le_value ((payload_bytes scenario_C).take 4) = 0xAAAAAAAA ∧
      get_param_n scenario_C 0 = Outcome.ok 0xAA := by
  decide

end PTP

/-! ## Payload access, call sequences and construction -/

namespace PTP

open PTPContainer

theorem get_payload_inside (c : PTPContainer) (hinv : Invariant c)
    (hint : c.length - 12 < 2 ^ 31) :
    get_payload c = Outcome.ok (payload_bytes c, c.length - 12) := by
  obtain ⟨hlo, hcap⟩ := (invariant_iff c).1 hinv
  unfold get_payload
  simp only [default_length, sub_u32_of_le _ _ hlo]
  rw [if_neg (by omega), read_range_inside _ 0 _ (by omega) hcap]
  simp [payload_bytes, default_length]

theorem add_params_complete (calls : List (Memory × Nat)) :
    ∀ c : PTPContainer, Invariant c → c.length + 4 * calls.length < 2 ^ 32 →
      ∃ s, add_params c calls = (s, Outcome.ok ()) ∧ s.length = c.length + 4 * calls.length ∧
        Invariant s := by
  induction calls with
  | nil =>
    intro c hinv _
    exact ⟨c, rfl, by simp, hinv⟩
  | cons call rest ih =>
    intro c hinv hfit
    simp only [List.length_cons] at hfit
    have hstep := invariant_after_add_param call.1 c call.2 hinv (by omega)
    have hc := add_param_complete call.1 c call.2 hinv (by omega)
    rw [hc] at hstep
    obtain ⟨s, hs, hlen, hsinv⟩ := ih _ hstep.2 (by simp only; omega)
    refine ⟨s, ?_, ?_, hsinv⟩
    · rw [add_params, hc]
      exact hs
    · rw [hlen]
      simp only [List.length_cons]
      omega

theorem add_params_append (xs : List (Memory × Nat)) (x : Memory × Nat) :
    ∀ c s : PTPContainer, add_params c xs = (s, Outcome.ok ()) →
      add_params c (xs ++ [x]) = add_params s [x] := by
  induction xs with
  | nil =>
    intro c s h
    simp only [add_params, Prod.mk.injEq, and_true] at h
    rw [h]
    rfl
  | cons call rest ih =>
    intro c s h
    rw [List.cons_append, add_params]
    rw [add_params] at h
    rcases hq : add_param call.1 c call.2 with ⟨next, o⟩
    rw [hq] at h
    cases o with
    | ok u =>
      cases u
      exact ih next s h
    | thrown e => simp at h
    | undefined => simp at h

theorem write_at_some (dest src out : List Nat) (off : Nat) (h : write_at dest off src = some out) :
    off + src.length ≤ dest.length ∧ out.length = dest.length := by
  unfold write_at at h
  split at h
  · rename_i hle
    simp only [Option.some.injEq] at h
    subst h
    refine ⟨hle, ?_⟩
    simp only [List.length_append, List.length_take, List.length_drop]
    omega
  · cases h

theorem read_range_some (p : Option (List Nat)) (first last : Nat) (out : List Nat)
    (h : read_range p first last = some out) : first ≤ last ∧ last ≤ (p.getD []).length := by
  unfold read_range at h
  split at h
  · assumption
  · cases h

theorem pack_ok_invariant (m : Memory) (c : PTPContainer) (bytes : List Nat)
    (h : pack m c = Outcome.ok bytes) : Invariant c := by
  unfold pack at h
  simp only [Option.bind_eq_bind] at h
  cases h0 : write_at (new_array c.length m.heap) 0 (copy_scalar c.length m.past_length 4) with
  | none => rw [h0] at h; cases h
  | some p0 =>
    rw [h0, Option.some_bind] at h
    cases h1 : write_at p0 4 (copy_scalar c.type m.past_type 2) with
    | none => rw [h1] at h; cases h
    | some p1 =>
      rw [h1, Option.some_bind] at h
      cases h2 : write_at p1 6 (copy_scalar c.code m.past_code 2) with
      | none => rw [h2] at h; cases h
      | some p2 =>
        rw [h2, Option.some_bind] at h
        cases h3 : write_at p2 8 (copy_scalar c.transaction_id m.past_transaction_id 4) with
        | none => rw [h3] at h; cases h
        | some p3 =>
          rw [h3, Option.some_bind] at h
          have l0 := (write_at_some _ _ _ _ h0).2
          have l1 := (write_at_some _ _ _ _ h1).2
          have l2 := (write_at_some _ _ _ _ h2).2
          have l3 := (write_at_some _ _ _ _ h3).1
          rw [length_copy_scalar] at l3
          rw [length_new_array] at l0
          have hlo : 12 ≤ c.length := by omega
          rw [if_pos (by omega)] at h
          cases hb : read_range c.payload 0 (c.length - (4 + 2 + 2 + 4)) with
          | none => rw [hb] at h; cases h
          | some body =>
            have := (read_range_some _ _ _ _ hb).2
            exact (invariant_iff c).2 ⟨hlo, by omega⟩

theorem ofOption_ne_thrown {α : Type} (o : Option α) (e : LIBPTP_PP_ERRORS) :
    Outcome.ofOption o ≠ Outcome.thrown e := by
  cases o <;> simp [Outcome.ofOption]

theorem pack_undefined (m : Memory) (c : PTPContainer) (h : ¬ Invariant c) :
    pack m c = Outcome.undefined := by
  cases hp : pack m c with
  | ok bytes => exact absurd (pack_ok_invariant m c bytes hp) h
  | thrown e =>
    unfold pack at hp
    exact absurd hp (ofOption_ne_thrown _ e)
  | undefined => rfl

end PTP

/-! ## The claims on payload access, sequences, construction and framing -/

namespace PTP

open PTPContainer

theorem invariant_too_short : ¬ Invariant too_short := by
  rw [invariant_iff]
  intro h
  exact absurd h.1 (by decide)

/-- C11 (replace semantics): on every container, whatever its payload was,
`set_payload(bytes)` completes for every byte sequence whose count an `int`
holds; afterwards `get_payload()` returns exactly `bytes` with the count
`bytes.size()`, and `get_length()` is `12 + bytes.size()`. -/
theorem C11_set_payload_replaces_payload (c : PTPContainer) (bytes : List Nat)
    (hint : bytes.length < 2 ^ 31) :
    (set_payload c bytes bytes.length).2 = Outcome.ok () ∧
      get_payload (set_payload c bytes bytes.length).1 = Outcome.ok (bytes, bytes.length) ∧
      get_length (set_payload c bytes bytes.length).1 = 12 + bytes.length := by
  rw [set_payload_complete, Nat.mod_eq_of_lt (by omega)]
  refine ⟨rfl, ?_, rfl⟩
  unfold get_payload
  simp only [default_length, sub_u32_of_le _ _ (Nat.le_add_right 12 bytes.length),
    Nat.add_sub_cancel_left]
  rw [if_neg (by omega), read_range_inside _ 0 _ (by omega) (by simp)]
  simp

/-- C11, witness: scenario A after `add_param(1)`, then `set_payload` of eight
`0xAA` bytes. -/
theorem C11_set_payload_replaces_payload_witness :
    (set_payload (add_param zero_memory scenario_A 1).1 (List.replicate 8 0xAA)
        (List.replicate 8 0xAA).length).2 = Outcome.ok () ∧
      get_payload (set_payload (add_param zero_memory scenario_A 1).1 (List.replicate 8 0xAA)
        (List.replicate 8 0xAA).length).1 =
          Outcome.ok (List.replicate 8 0xAA, (List.replicate 8 0xAA).length) ∧
      get_length (set_payload (add_param zero_memory scenario_A 1).1 (List.replicate 8 0xAA)
        (List.replicate 8 0xAA).length).1 = 12 + (List.replicate 8 0xAA).length :=
  C11_set_payload_replaces_payload (add_param zero_memory scenario_A 1).1
    (List.replicate 8 0xAA) (by decide)

/-- C12 (add_param is a pure append), evaluated on the code at a container
whose payload is the three bytes `01 02 03`: `add_param(p)` completes, keeps
the old bytes and adds 4 to the length, but the four bytes it appends are
`p % 256` and the low bytes of the three objects after `param` in memory, not
the little-endian bytes of `p`.  The values 0x100 and 0x200 leave the same
container. -/
theorem C12_add_param_appends_low_byte_and_memory (m : Memory) (p : Nat) :
    Invariant three_bytes ∧
      (add_param m three_bytes p).2 = Outcome.ok () ∧
      payload_bytes (add_param m three_bytes p).1 =
        [1, 2, 3, p % 256, m.past_param 1 % 256, m.past_param 2 % 256, m.past_param 3 % 256] ∧
      (add_param m three_bytes p).1.length = three_bytes.length + 4 ∧
      add_param m three_bytes 0x100 = add_param m three_bytes 0x200 ∧
      le_bytes 4 0x100 = [0, 1, 0, 0] ∧ le_bytes 4 0x200 = [0, 2, 0, 0] := by
  have hinv : Invariant three_bytes := by
    simp [Invariant, payload_bytes, three_bytes, default_length]
  have hfit : three_bytes.length + 4 < 2 ^ 32 := by decide
  have hsame : add_param m three_bytes 0x100 = add_param m three_bytes 0x200 := by
    rw [add_param_complete m three_bytes 0x100 hinv hfit,
      add_param_complete m three_bytes 0x200 hinv hfit, copy_scalar_four, copy_scalar_four]
  exact ⟨hinv, rfl, rfl, rfl, hsame, by decide, by decide⟩

/-- C13, counterexample: `2 ^ 30 - 3` calls of `add_param` on a fresh
container.  The first `2 ^ 30 - 4` complete and leave `length = 2 ^ 32 - 4`;
the next call wraps the length and does not complete, so `get_length()` never
is `12 + 4 * (2 ^ 30 - 3) = 2 ^ 32`. -/
theorem C13_add_param_sequence_wraps :
    (List.replicate (2 ^ 30 - 4) (zero_memory, 0) ++ [(zero_memory, 0)]).length = 2 ^ 30 - 3 ∧
      ∃ s, add_params (construct blank)
          (List.replicate (2 ^ 30 - 4) (zero_memory, 0) ++ [(zero_memory, 0)]) =
            (s, Outcome.undefined) ∧ get_length s = 2 ^ 32 - 4 := by
  have h12 : (construct blank).length = 12 := rfl
  obtain ⟨s, hs, hlen, hinv⟩ := add_params_complete
    (List.replicate (2 ^ 30 - 4) (zero_memory, 0)) (construct blank) (invariant_construct blank)
    (by rw [h12, List.length_replicate]; norm_num)
  rw [h12, List.length_replicate] at hlen
  have hlen2 : s.length = 2 ^ 32 - 4 := by rw [hlen]; norm_num
  refine ⟨by rw [List.length_append, List.length_replicate, List.length_singleton]; norm_num,
    s, ?_, hlen2⟩
  rw [add_params_append _ _ _ s hs, add_params,
    add_param_wraps zero_memory s 0 hinv (by rw [hlen2]; norm_num) (by rw [hlen2]; norm_num)]

/-- C13, as amended: starting from a container with an empty payload, `k` calls
of `add_param` all complete and `get_length()` then returns `12 + 4 * k`,
for every `k` with `12 + 4 * k < 2 ^ 32`. -/
theorem C13_length_after_add_params (c : PTPContainer) (calls : List (Memory × Nat))
    (hinv : Invariant c) (hempty : payload_bytes c = [])
    (hfit : 12 + 4 * calls.length < 2 ^ 32) :
    ∃ s, add_params c calls = (s, Outcome.ok ()) ∧ get_length s = 12 + 4 * calls.length := by
  have h12 : c.length = 12 := by
    have h := hinv
    unfold Invariant at h
    rw [hempty] at h
    simpa [default_length] using h
  obtain ⟨s, hs, hlen, _⟩ := add_params_complete calls c hinv (by omega)
  exact ⟨s, hs, by rw [get_length, hlen, h12]⟩

/-- C13, witness: one `add_param` on the fresh command container of scenario A
gives length 16. -/
theorem C13_length_after_add_params_witness :
    ∃ s, add_params scenario_A [(zero_memory, 1)] = (s, Outcome.ok ()) ∧
      get_length s = 12 + 4 * [(zero_memory, 1)].length :=
  C13_length_after_add_params scenario_A [(zero_memory, 1)] invariant_scenario_A (by decide)
    (by decide)

/-- C14, counterexample: built in storage whose members all hold 7, the default
constructor leaves type, code and transaction id at 7, and the constructor with
type and code leaves the transaction id at 7. -/
theorem C14_constructors_leave_members_unassigned :
    (construct stale).type = 7 ∧ (construct stale).code = 7 ∧
      (construct stale).transaction_id = 7 ∧
      (construct_type_op_code stale 1 0x1001).transaction_id = 7 := by
  decide

/-- C14, as amended: the default constructor returns `length = 12` and a null
payload and leaves type, code and transaction id as the storage held them; the
constructor with `type` and `op_code` returns exactly these two values,
`length = 12` and a null payload, and leaves the transaction id as the storage
held it. -/
theorem C14_constructors_set_length_and_payload (raw : PTPContainer) (type op_code : Nat) :
    construct raw = ⟨12, none, raw.type, raw.code, raw.transaction_id⟩ ∧
      construct_type_op_code raw type op_code = ⟨12, none, type, op_code, raw.transaction_id⟩ ∧
      payload_bytes (construct raw) = [] ∧
      payload_bytes (construct_type_op_code raw type op_code) = [] :=
  ⟨rfl, rfl, rfl, rfl⟩

/-- C15 (from_bytes is construct-then-parse), evaluated on the code: in storage
whose payload member is not a null pointer, the constructor from bytes runs
`delete[]` on that value and does not complete, where `unpack` on a constructed
container parses scenario B. -/
theorem C15_data_constructor_skips_init (m : Memory) :
    stale.payload ≠ none ∧
      construct_data m stale scenario_B = (stale, Outcome.undefined) ∧
      unpack m (construct stale) scenario_B = (⟨12, some [], 3, 1, 5⟩, Outcome.ok ()) :=
  ⟨by decide, rfl, rfl⟩

/-- C16, counterexample: a container with `length = 5` breaks the invariant;
`pack` on it writes past the 5 cells it allocated, and fails with no signal. -/
theorem C16_pack_has_no_defensive_check :
    ¬ Invariant too_short ∧ pack zero_memory too_short = Outcome.undefined ∧
      ∀ s, ¬ fails_with (pack zero_memory too_short) s := by
  have h := pack_undefined zero_memory too_short invariant_too_short
  refine ⟨invariant_too_short, h, fun s => ?_⟩
  rw [h]
  exact not_fails_with_undefined s

/-- C16, as amended: `pack` completes exactly when the invariant holds.  With
the invariant it returns a buffer of `length` bytes; without it (a length below
12, or a buffer shorter than `length - 12`) it has no check to fail on and ends
in undefined behaviour: a store past the packed buffer or a read outside the
payload. -/
theorem C16_pack_completes_iff_invariant (m : Memory) (c : PTPContainer) :
    (Invariant c → ∃ bytes, pack m c = Outcome.ok bytes ∧ bytes.length = c.length) ∧
      (¬ Invariant c → pack m c = Outcome.undefined) := by
  refine ⟨fun hinv => ⟨_, pack_complete m c hinv, ?_⟩, pack_undefined m c⟩
  obtain ⟨hlo, hcap⟩ := (invariant_iff c).1 hinv
  simp only [List.length_append, length_copy_scalar, payload_bytes, default_length,
    List.length_take]
  omega

/-- C16, witness: the container with one parameter packs to 16 bytes, the
container with `length = 5` does not pack. -/
theorem C16_pack_completes_iff_invariant_witness :
    (∃ bytes, pack zero_memory one_param = Outcome.ok bytes ∧ bytes.length = one_param.length) ∧
      pack zero_memory too_short = Outcome.undefined :=
  ⟨(C16_pack_completes_iff_invariant zero_memory one_param).1 invariant_one_param,
    (C16_pack_completes_iff_invariant zero_memory too_short).2 invariant_too_short⟩

/-- C17 (unpack overwrites prior state), evaluated on the code at a valid
buffer: 256 bytes whose length field `00 01 00 00` declares 256.  `unpack`
stores byte 0 alone in `length`, so the length it reads is 0; the payload copy
then runs over the reversed range from offset 12 to offset 0, and the call ends
in undefined behaviour whatever the container held: on this valid input it
yields no container, equal or not. -/
theorem C17_unpack_valid_buffer_ends_undefined (m : Memory) (c : PTPContainer) :
    valid_input declares_256 ∧ declared_length declares_256 = 256 ∧
      (unpack m c declares_256).2 = Outcome.undefined := by
  have hlen : declares_256.length = 256 := by
    simp only [declares_256, List.length_cons, List.length_replicate]
  have hdecl : declared_length declares_256 = 256 := rfl
  have hfirst : declares_256.headD 0 = 0 := rfl
  exact ⟨⟨by omega, by omega, by omega⟩, hdecl,
    unpack_undefined m c declares_256 (Or.inr (Or.inl (by omega)))⟩

/-- C18 (re-serialisation), evaluated on the code at scenario B, a valid
buffer: `unpack` completes, and `pack` of the result returns `0C`, `03`, `01`,
`05` at offsets 0, 4, 6, 8 and the low bytes of what follows each member in
memory elsewhere; byte 7 of the input (`20`) is not kept anywhere: the buffer
with `21` at offset 7 leaves the same container. -/
theorem C18_repack_keeps_four_header_bytes (m : Memory) (c : PTPContainer) :
    valid_input scenario_B ∧
      unpack m c scenario_B = (⟨12, some [], 3, 1, 5⟩, Outcome.ok ()) ∧
      pack m (unpack m c scenario_B).1 = Outcome.ok
        [0x0C, m.past_length 1 % 256, m.past_length 2 % 256, m.past_length 3 % 256,
          3, m.past_type 1 % 256, 1, m.past_code 1 % 256,
          5, m.past_transaction_id 1 % 256, m.past_transaction_id 2 % 256,
          m.past_transaction_id 3 % 256] ∧
      unpack m c [0x0C, 0, 0, 0, 3, 0, 0x01, 0x21, 5, 0, 0, 0] = unpack m c scenario_B := by
  have hu : unpack m c scenario_B = (⟨12, some [], 3, 1, 5⟩, Outcome.ok ()) := rfl
  have hinv : Invariant (⟨12, some [], 3, 1, 5⟩ : PTPContainer) := by
    simp [Invariant, payload_bytes, default_length]
  refine ⟨⟨by decide, by decide, by decide⟩, hu, ?_, rfl⟩
  rw [hu, pack_complete m _ hinv]
  simp only [copy_scalar_four, copy_scalar_two]
  rfl

/-- C19 (header frame of the mutations): `add_param(value)` and
`set_payload(bytes)` leave type, code and transaction id as they were, for
every container, value and byte sequence, however the call ends. -/
theorem C19_mutations_keep_header_members (m : Memory) (c : PTPContainer) (p : Nat)
    (bytes : List Nat) (n : Nat) :
    (add_param m c p).1.type = c.type ∧ (add_param m c p).1.code = c.code ∧
      (add_param m c p).1.transaction_id = c.transaction_id ∧
      (set_payload c bytes n).1.type = c.type ∧ (set_payload c bytes n).1.code = c.code ∧
      (set_payload c bytes n).1.transaction_id = c.transaction_id := by
  unfold add_param set_payload
  dsimp only
  refine ⟨?_, ?_, ?_, ?_, ?_, ?_⟩ <;> split <;> rfl

end PTP
